import Mathlib

/-!
Shallow embedding of the PHPBoy rust-hybrid-poc emulator core
(`src/lib.rs`, `src/bus.rs`, `src/cpu.rs`, `src/ppu.rs`, `src/cartridge.rs`).

Machine integers (`u8`, `u16`, `u32`, `usize`) are modelled as `Nat` with
explicit `% 2^w` at every point where the Rust code wraps (`wrapping_add`,
`as u8` casts, u32 addition).  Byte arrays and `Vec<u8>` are modelled as a
lookup function together with a length (`Bytes`), and the fixed-size memory
regions of the bus as plain lookup functions `Nat → Nat` updated pointwise.
Fallible Rust functions returning `Result` are modelled with `Except`.
-/

set_option maxRecDepth 100000

namespace GB

/-- Pointwise update of a memory region, modelling `arr[i] = v`. -/
def upd (f : Nat → Nat) (i v : Nat) : Nat → Nat :=
  fun j => if j = i then v else f j

/-- A byte slice / `Vec<u8>`: contents plus length. -/
structure Bytes where
  get : Nat → Nat
  size : Nat

/-! ## Bus (`bus.rs`) -/

/-- The memory bus state (`struct Bus`). -/
structure Bus where
  rom : Bytes
  vram : Nat → Nat
  wram : Nat → Nat
  hram : Nat → Nat
  oam : Nat → Nat
  io : Nat → Nat
  buttons : Nat

/-- `Bus::new`. -/
def Bus.new : Bus :=
  { rom := ⟨fun _ => 0, 32768⟩
    vram := fun _ => 0
    wram := fun _ => 0
    hram := fun _ => 0
    oam := fun _ => 0
    io := fun _ => 0
    buttons := 0xFF }

/-- `Bus::reset` (note: does not touch `rom`). -/
def Bus.reset (b : Bus) : Bus :=
  { b with vram := fun _ => 0, wram := fun _ => 0, hram := fun _ => 0,
           oam := fun _ => 0, io := fun _ => 0, buttons := 0xFF }

/-- `Bus::read`, the ordered match on address ranges translated to an if-chain. -/
def Bus.read (b : Bus) (addr : Nat) : Nat :=
  if addr ≤ 0x7FFF then
    (if addr < b.rom.size then b.rom.get addr else 0xFF)
  else if addr ≤ 0x9FFF then b.vram (addr - 0x8000)
  else if addr ≤ 0xBFFF then 0xFF
  else if addr ≤ 0xDFFF then b.wram (addr - 0xC000)
  else if addr ≤ 0xFDFF then b.wram (addr - 0xE000)
  else if addr ≤ 0xFE9F then b.oam (addr - 0xFE00)
  else if addr ≤ 0xFEFF then 0xFF
  else if addr ≤ 0xFF7F then
    (if addr = 0xFF00 then b.buttons else b.io (addr - 0xFF00))
  else if addr ≤ 0xFFFE then b.hram (addr - 0xFF80)
  else if addr = 0xFFFF then b.io 0x7F
  else 0xFF

/-- `Bus::write`. The ROM range and the external-RAM range are write-ignored
(the source has `TODO` comments there and does nothing). -/
def Bus.write (b : Bus) (addr value : Nat) : Bus :=
  if addr ≤ 0x7FFF then b
  else if addr ≤ 0x9FFF then { b with vram := upd b.vram (addr - 0x8000) value }
  else if addr ≤ 0xBFFF then b
  else if addr ≤ 0xDFFF then { b with wram := upd b.wram (addr - 0xC000) value }
  else if addr ≤ 0xFDFF then { b with wram := upd b.wram (addr - 0xE000) value }
  else if addr ≤ 0xFE9F then { b with oam := upd b.oam (addr - 0xFE00) value }
  else if addr ≤ 0xFEFF then b
  else if addr ≤ 0xFF7F then { b with io := upd b.io (addr - 0xFF00) value }
  else if addr ≤ 0xFFFE then { b with hram := upd b.hram (addr - 0xFF80) value }
  else if addr = 0xFFFF then { b with io := upd b.io 0x7F value }
  else b

/-- `Bus::set_button`.  `!(1 << button)` on `u8` is `255 ^^^ (1 <<< button)`. -/
def Bus.setButton (b : Bus) (button : Nat) (pressed : Bool) : Bus :=
  if button < 8 then
    if pressed then { b with buttons := b.buttons &&& (255 ^^^ (1 <<< button)) }
    else { b with buttons := b.buttons ||| (1 <<< button) }
  else b

/-- `Bus::load_rom`. -/
def Bus.loadRom (b : Bus) (data : Bytes) : Bus :=
  { b with rom := data }

/-! ## Cartridge (`cartridge.rs`) -/

/-- `enum CartridgeType`. -/
inductive CartridgeType where
  | RomOnly
  | Mbc1
  | Mbc3
  | Mbc5
  | Unknown (b : Nat)
deriving DecidableEq

/-- `struct CartridgeHeader`.  The title is kept as its raw bytes with the
trailing NUL bytes trimmed; the Rust code additionally decodes them with
`String::from_utf8_lossy`, which is the identity on the ASCII bytes used
anywhere in this development. -/
structure CartridgeHeader where
  title : List Nat
  cartridge_type : CartridgeType
  rom_size : Nat
  ram_size : Nat
  cgb_flag : Nat

/-- `struct Cartridge`. -/
structure Cartridge where
  header : CartridgeHeader
  rom : Bytes
  ram : List Nat

/-- `trim_end_matches` of NUL bytes. -/
def trimNulls (l : List Nat) : List Nat :=
  (l.reverse.dropWhile (fun x => x = 0)).reverse

/-- `Cartridge::parse_header` (its `Result` never takes the error branch in
the source; the match on the type byte's ranges is an ordered if-chain). -/
def Cartridge.parseHeader (data : Bytes) : Except String CartridgeHeader :=
  let titleBytes := (List.range 16).map (fun i => data.get (0x134 + i))
  let title := trimNulls titleBytes
  let cgb_flag := data.get 0x143
  let ctb := data.get 0x147
  let cartridge_type :=
    if ctb = 0 then CartridgeType.RomOnly
    else if 1 ≤ ctb ∧ ctb ≤ 3 then CartridgeType.Mbc1
    else if 0x0F ≤ ctb ∧ ctb ≤ 0x13 then CartridgeType.Mbc3
    else if 0x19 ≤ ctb ∧ ctb ≤ 0x1E then CartridgeType.Mbc5
    else CartridgeType.Unknown ctb
  let rom_size := 32768 <<< data.get 0x148
  let ram_size :=
    match data.get 0x149 with
    | 0 => 0
    | 2 => 8192
    | 3 => 32768
    | 4 => 131072
    | 5 => 65536
    | _ => 0
  Except.ok ⟨title, cartridge_type, rom_size, ram_size, cgb_flag⟩

/-- `Cartridge::from_rom`. -/
def Cartridge.from_rom (data : Bytes) : Except String Cartridge :=
  if data.size < 0x150 then Except.error ("ROM too small")
  else
    match Cartridge.parseHeader data with
    | Except.error e => Except.error e
    | Except.ok h => Except.ok ⟨h, data, List.replicate h.ram_size 0⟩

/-! ## PPU (`ppu.rs`) -/

/-- `enum Mode`. -/
inductive Mode where
  | HBlank
  | VBlank
  | OamSearch
  | Drawing
deriving DecidableEq

/-- `struct Ppu`. -/
structure Ppu where
  mode : Mode
  cycle : Nat
  scanline : Nat
  lcdc : Nat
  stat : Nat
  scy : Nat
  scx : Nat
  ly : Nat
  lyc : Nat
  bgp : Nat
  obp0 : Nat
  obp1 : Nat

/-- `Ppu::new`. -/
def Ppu.new : Ppu :=
  { mode := Mode.OamSearch, cycle := 0, scanline := 0,
    lcdc := 0x91, stat := 0, scy := 0, scx := 0, ly := 0, lyc := 0,
    bgp := 0xFC, obp0 := 0xFF, obp1 := 0xFF }

/-- The frame buffer: a flat byte array, modelled as a lookup function. -/
def FB : Type := Nat → Nat

/-- `Ppu::dmg_color`.  The `unreachable!()` arm (shade is always `&&& 3 < 4`)
is given an arbitrary total value. -/
def Ppu.dmgColor (color palette : Nat) : Nat × Nat × Nat :=
  match (palette >>> (color * 2)) &&& 3 with
  | 0 => (255, 255, 255)
  | 1 => (192, 192, 192)
  | 2 => (96, 96, 96)
  | 3 => (0, 0, 0)
  | _ => (0, 0, 0)

/-- `Ppu::render_scanline`. -/
def Ppu.renderScanline (p : Ppu) (fb : FB) : FB :=
  let y := p.scanline
  if 144 ≤ y then fb
  else
    (List.range 160).foldl
      (fun fb x =>
        let offset := (y * 160 + x) * 4
        let color := (x + y) % 4
        let rgb := Ppu.dmgColor color p.bgp
        upd (upd (upd (upd fb offset rgb.1) (offset + 1) rgb.2.1)
             (offset + 2) rgb.2.2) (offset + 3) 255)
      fb

/-- One iteration of the `for _ in 0..cycles` loop body of `Ppu::step`:
`self.cycle += 1` followed by the match on the mode.  The scan-line counter
is a `u8` in the source but only ever reaches 154 before being reset, so no
wrap is modelled. -/
def Ppu.tick (p : Ppu) (fb : FB) : Ppu × FB :=
  let p := { p with cycle := p.cycle + 1 }
  match p.mode with
  | Mode.OamSearch =>
      if 80 ≤ p.cycle then ({ p with mode := Mode.Drawing, cycle := 0 }, fb)
      else (p, fb)
  | Mode.Drawing =>
      if 172 ≤ p.cycle then
        ({ p with mode := Mode.HBlank, cycle := 0 }, p.renderScanline fb)
      else (p, fb)
  | Mode.HBlank =>
      if 204 ≤ p.cycle then
        let sl := p.scanline + 1
        if 144 ≤ sl then
          ({ p with scanline := sl, ly := sl, cycle := 0, mode := Mode.VBlank }, fb)
        else
          ({ p with scanline := sl, ly := sl, cycle := 0, mode := Mode.OamSearch }, fb)
      else (p, fb)
  | Mode.VBlank =>
      if 456 ≤ p.cycle then
        let sl := p.scanline + 1
        if 154 ≤ sl then
          ({ p with scanline := 0, ly := 0, cycle := 0, mode := Mode.OamSearch }, fb)
        else
          ({ p with scanline := sl, ly := sl, cycle := 0 }, fb)
      else (p, fb)

/-- `Ppu::step cycles`: the tick iterated `cycles` times. -/
def Ppu.stepN : Nat → Ppu → FB → Ppu × FB
  | 0, p, fb => (p, fb)
  | n + 1, p, fb =>
      let r := Ppu.tick p fb
      Ppu.stepN n r.1 r.2

/-- Projection of `Ppu.tick` to the PPU state (the mode/cycle/scan-line
machine never reads the frame buffer). -/
def Ppu.tickS (p : Ppu) : Ppu :=
  let p := { p with cycle := p.cycle + 1 }
  match p.mode with
  | Mode.OamSearch =>
      if 80 ≤ p.cycle then { p with mode := Mode.Drawing, cycle := 0 }
      else p
  | Mode.Drawing =>
      if 172 ≤ p.cycle then { p with mode := Mode.HBlank, cycle := 0 }
      else p
  | Mode.HBlank =>
      if 204 ≤ p.cycle then
        let sl := p.scanline + 1
        if 144 ≤ sl then
          { p with scanline := sl, ly := sl, cycle := 0, mode := Mode.VBlank }
        else
          { p with scanline := sl, ly := sl, cycle := 0, mode := Mode.OamSearch }
      else p
  | Mode.VBlank =>
      if 456 ≤ p.cycle then
        let sl := p.scanline + 1
        if 154 ≤ sl then
          { p with scanline := 0, ly := 0, cycle := 0, mode := Mode.OamSearch }
        else
          { p with scanline := sl, ly := sl, cycle := 0 }
      else p

/-- State projection of `Ppu.stepN`. -/
def Ppu.stepS : Nat → Ppu → Ppu
  | 0, p => p
  | n + 1, p => Ppu.stepS n (Ppu.tickS p)

/-! ## CPU (`cpu.rs`) -/

/-- `struct Registers`. -/
structure Registers where
  a : Nat
  f : Nat
  b : Nat
  c : Nat
  d : Nat
  e : Nat
  h : Nat
  l : Nat
  sp : Nat
  pc : Nat

def FLAG_Z : Nat := 0b10000000
def FLAG_N : Nat := 0b01000000
def FLAG_H : Nat := 0b00100000
def FLAG_C : Nat := 0b00010000

/-- `struct Cpu`. -/
structure Cpu where
  regs : Registers
  ime : Bool
  halted : Bool

/-- `Cpu::new` (power-on register values). -/
def Cpu.new : Cpu :=
  { regs := { a := 0x01, f := 0xB0, b := 0x00, c := 0x13, d := 0x00,
              e := 0xD8, h := 0x01, l := 0x4D, sp := 0xFFFE, pc := 0x0100 }
    ime := false
    halted := false }

/-- `Cpu::inc`: returns the updated CPU (new flag register) and the result. -/
def Cpu.inc (cpu : Cpu) (val : Nat) : Cpu × Nat :=
  let result := (val + 1) % 256
  let f := (cpu.regs.f &&& FLAG_C) |||
    (if result = 0 then FLAG_Z else 0) |||
    (if val &&& 0x0F = 0x0F then FLAG_H else 0)
  ({ cpu with regs := { cpu.regs with f := f } }, result)

/-- `Cpu::dec`. `wrapping_sub(1)` on `u8` is `(val + 255) % 256`. -/
def Cpu.dec (cpu : Cpu) (val : Nat) : Cpu × Nat :=
  let result := (val + 255) % 256
  let f := (cpu.regs.f &&& FLAG_C) ||| FLAG_N |||
    (if result = 0 then FLAG_Z else 0) |||
    (if val &&& 0x0F = 0 then FLAG_H else 0)
  ({ cpu with regs := { cpu.regs with f := f } }, result)

/-- `Cpu::execute`: the implemented opcodes 0x00–0x07 plus the default arm
(unknown opcodes consume 4 cycles and change nothing). -/
def Cpu.execute (cpu : Cpu) (opcode : Nat) (bus : Bus) : Cpu × Bus × Nat :=
  match opcode with
  | 0 => (cpu, bus, 4)
  | 1 =>
      let low := bus.read cpu.regs.pc
      let pc1 := (cpu.regs.pc + 1) % 65536
      let high := bus.read pc1
      let pc2 := (pc1 + 1) % 65536
      ({ cpu with regs := { cpu.regs with pc := pc2, b := high, c := low } }, bus, 12)
  | 2 =>
      let addr := cpu.regs.b * 256 + cpu.regs.c
      (cpu, bus.write addr cpu.regs.a, 8)
  | 3 =>
      let bc := (cpu.regs.b * 256 + cpu.regs.c + 1) % 65536
      ({ cpu with regs := { cpu.regs with b := (bc >>> 8) % 256, c := bc % 256 } }, bus, 8)
  | 4 =>
      let r := cpu.inc cpu.regs.b
      ({ r.1 with regs := { r.1.regs with b := r.2 } }, bus, 4)
  | 5 =>
      let r := cpu.dec cpu.regs.b
      ({ r.1 with regs := { r.1.regs with b := r.2 } }, bus, 4)
  | 6 =>
      let n := bus.read cpu.regs.pc
      ({ cpu with regs := { cpu.regs with b := n, pc := (cpu.regs.pc + 1) % 65536 } }, bus, 8)
  | 7 =>
      let carry := (cpu.regs.a &&& 0x80) >>> 7
      let a := ((cpu.regs.a <<< 1) % 256) ||| carry
      let f := if carry ≠ 0 then FLAG_C else 0
      ({ cpu with regs := { cpu.regs with a := a, f := f } }, bus, 4)
  | _ => (cpu, bus, 4)

/-- `Cpu::step`: fetch, advance `pc` (wrapping), dispatch. -/
def Cpu.step (cpu : Cpu) (bus : Bus) : Cpu × Bus × Nat :=
  if cpu.halted then (cpu, bus, 4)
  else
    let opcode := bus.read cpu.regs.pc
    let cpu := { cpu with regs := { cpu.regs with pc := (cpu.regs.pc + 1) % 65536 } }
    Cpu.execute cpu opcode bus

/-- `Cpu::step` iterated, threading the bus (the cycle outputs go to the PPU
and are irrelevant to the CPU/bus evolution). -/
def cpuIter : Nat → Cpu × Bus → Cpu × Bus
  | 0, s => s
  | n + 1, s =>
      let r := Cpu.step s.1 s.2
      cpuIter n (r.1, r.2.1)

/-! ## Core (`lib.rs`) -/

/-- `CYCLES_PER_FRAME` from `lib.rs`. -/
def CYCLES_PER_FRAME : Nat := 70224

/-- `struct GameBoyCore`. -/
structure Core where
  cpu : Cpu
  ppu : Ppu
  bus : Bus
  cartridge : Option Cartridge
  framebuffer : FB
  audio : List Float
  cycleCount : Nat

/-- `GameBoyCore::new`. -/
def Core.new : Core :=
  { cpu := Cpu.new, ppu := Ppu.new, bus := Bus.new, cartridge := none,
    framebuffer := fun _ => 0, audio := [], cycleCount := 0 }

/-- `GameBoyCore::reset` (does not unload the cartridge, does not reload the
bus ROM). -/
def Core.reset (c : Core) : Core :=
  { c with cpu := Cpu.new, ppu := Ppu.new, bus := c.bus.reset,
           cycleCount := 0, framebuffer := fun _ => 255, audio := [] }

/-- `GameBoyCore::load_rom`: returns the post-call core state together with
the `Result`.  On failure the core is returned unchanged (the `?` operator
propagates before any mutation). -/
def Core.loadRom (c : Core) (data : Bytes) : Core × Except String Unit :=
  match Cartridge.from_rom data with
  | Except.error e => (c, Except.error ("Failed to load ROM: " ++ e))
  | Except.ok cart => (Core.reset { c with cartridge := some cart }, Except.ok ())

/-- `GameBoyCore::set_input`. -/
def Core.setInput (c : Core) (button : Nat) (pressed : Bool) : Core :=
  { c with bus := c.bus.setButton button pressed }

/-- One iteration of the body of `GameBoyCore::step`'s frame loop: one CPU
step, the PPU advanced by the consumed cycles, and the cumulative (32-bit,
wrapping) cycle counter updated. -/
def frameStep (c : Core) : Core :=
  let r := Cpu.step c.cpu c.bus
  let q := Ppu.stepN r.2.2 c.ppu c.framebuffer
  { c with cpu := r.1, bus := r.2.1, ppu := q.1, framebuffer := q.2,
           cycleCount := (c.cycleCount + r.2.2) % 4294967296 }

/-- The `while cycles_this_frame < CYCLES_PER_FRAME` loop of
`GameBoyCore::step`, with an explicit fuel argument (the loop has no bound
in the source; every CPU step consumes at least 4 cycles, so
`CYCLES_PER_FRAME / 4` iterations always reach the budget — proved below as
`frameAux_ge`).  Returns the final core state and the final
`cycles_this_frame`. -/
def frameAux : Nat → Core → Nat → Core × Nat
  | 0, c, acc => (c, acc)
  | fuel + 1, c, acc =>
      if acc < CYCLES_PER_FRAME then
        frameAux fuel (frameStep c) (acc + (Cpu.step c.cpu c.bus).2.2)
      else (c, acc)

/-- `GameBoyCore::step` (the run-one-frame operation). -/
def Core.frame (c : Core) : Core × Nat :=
  frameAux (CYCLES_PER_FRAME / 4) c 0

/-- CPU/bus/cycle projection of the frame loop: the per-frame cycle counter
does not depend on the PPU or the frame buffer (proved as `frameAux_snd`). -/
def cbAux : Nat → Cpu → Bus → Nat → Cpu × Bus × Nat
  | 0, cpu, bus, acc => (cpu, bus, acc)
  | fuel + 1, cpu, bus, acc =>
      if acc < CYCLES_PER_FRAME then
        let r := Cpu.step cpu bus
        cbAux fuel r.1 r.2.1 (acc + r.2.2)
      else (cpu, bus, acc)

/-! ## Concrete inputs used by counterexamples and bug demonstrations -/

/-- A 32 KiB ROM-only cartridge image whose byte at address 0 is 0x42 and
whose header bytes are all zero (type 0x00 = ROM-only, RAM size 0). -/
def romImage : Bytes :=
  ⟨fun a => if a = 0 then 0x42 else 0, 0x8000⟩

/-- A 32 KiB ROM image holding a NOP (0x00, 4 cycles) at the entry point
0x0100 followed by an unbounded run of `LD BC, nn` opcodes (0x01, 12
cycles), so that one frame's cycle total is 4 + 12·5852 = 70228. -/
def patternBytes : Bytes :=
  ⟨fun a => if a = 0x100 then 0 else 1, 0x8000⟩

/-- A core whose bus ROM holds `patternBytes` (installed through
`Bus.loadRom`). -/
def overshootCore : Core :=
  { Core.new with bus := Bus.loadRom Core.new.bus patternBytes }

/-- The empty byte slice (a zero-length ROM image). -/
def emptyBytes : Bytes := ⟨fun _ => 0, 0⟩

/-- A bus on which button 0 has been pressed (reachable from `Bus.new`
through the public input operation). -/
def pressedBus : Bus := Bus.setButton Bus.new 0 true

/-- PPU state template: every state reachable from `Ppu.new` keeps the
power-on register values, and keeps `ly` equal to `scanline`. -/
def ppuSt (m : Mode) (cy sl : Nat) : Ppu :=
  { Ppu.new with mode := m, cycle := cy, scanline := sl, ly := sl }

/-- CPU state template for the overshoot run: after the initial NOP every
`LD BC, 0x0101` leaves only `b`, `c` and `pc` different from power-on. -/
def cpAt (pcv : Nat) : Cpu :=
  { Cpu.new with regs := { Cpu.new.regs with b := 1, c := 1, pc := pcv } }

end GB

namespace GB

theorem stepS_add (m n : Nat) (p : Ppu) :
    Ppu.stepS (m + n) p = Ppu.stepS n (Ppu.stepS m p) := by
  induction m generalizing p with
  | zero => simp [Ppu.stepS]
  | succ m ih =>
      have h : m + 1 + n = (m + n) + 1 := by omega
      rw [h]
      show Ppu.stepS (m + n) (Ppu.tickS p) = _
      rw [ih]
      rfl

theorem tickS_oam (c sl : Nat) (h : c + 1 < 80) :
    Ppu.tickS (ppuSt Mode.OamSearch c sl) = ppuSt Mode.OamSearch (c + 1) sl := by
  simp only [Ppu.tickS, ppuSt]
  rw [if_neg (by omega)]

theorem tickS_draw (c sl : Nat) (h : c + 1 < 172) :
    Ppu.tickS (ppuSt Mode.Drawing c sl) = ppuSt Mode.Drawing (c + 1) sl := by
  simp only [Ppu.tickS, ppuSt]
  rw [if_neg (by omega)]

theorem tickS_hblank (c sl : Nat) (h : c + 1 < 204) :
    Ppu.tickS (ppuSt Mode.HBlank c sl) = ppuSt Mode.HBlank (c + 1) sl := by
  simp only [Ppu.tickS, ppuSt]
  rw [if_neg (by omega)]

theorem tickS_vblank (c sl : Nat) (h : c + 1 < 456) :
    Ppu.tickS (ppuSt Mode.VBlank c sl) = ppuSt Mode.VBlank (c + 1) sl := by
  simp only [Ppu.tickS, ppuSt]
  rw [if_neg (by omega)]

theorem phase_oam (n c sl : Nat) (h : c + n = 80) (h1 : 1 ≤ n) :
    Ppu.stepS n (ppuSt Mode.OamSearch c sl) = ppuSt Mode.Drawing 0 sl := by
  induction n generalizing c with
  | zero => omega
  | succ n ih =>
      show Ppu.stepS n (Ppu.tickS (ppuSt Mode.OamSearch c sl)) = _
      by_cases hn : n = 0
      · subst hn
        have hc : c = 79 := by omega
        subst hc
        rfl
      · rw [tickS_oam c sl (by omega)]
        exact ih (c + 1) (by omega) (by omega)

end GB

namespace GB

theorem phase_draw (n c sl : Nat) (h : c + n = 172) (h1 : 1 ≤ n) :
    Ppu.stepS n (ppuSt Mode.Drawing c sl) = ppuSt Mode.HBlank 0 sl := by
  induction n generalizing c with
  | zero => omega
  | succ n ih =>
      show Ppu.stepS n (Ppu.tickS (ppuSt Mode.Drawing c sl)) = _
      by_cases hn : n = 0
      · subst hn
        have hc : c = 171 := by omega
        subst hc
        rfl
      · rw [tickS_draw c sl (by omega)]
        exact ih (c + 1) (by omega) (by omega)

theorem phase_hblank_vis (n c sl : Nat) (h : c + n = 204) (h1 : 1 ≤ n)
    (hsl : sl + 1 < 144) :
    Ppu.stepS n (ppuSt Mode.HBlank c sl) = ppuSt Mode.OamSearch 0 (sl + 1) := by
  induction n generalizing c with
  | zero => omega
  | succ n ih =>
      show Ppu.stepS n (Ppu.tickS (ppuSt Mode.HBlank c sl)) = _
      by_cases hn : n = 0
      · subst hn
        have hc : c = 203 := by omega
        subst hc
        show Ppu.tickS (ppuSt Mode.HBlank 203 sl) = _
        simp only [Ppu.tickS, ppuSt]
        rw [if_pos (by omega), if_neg (by omega)]
      · rw [tickS_hblank c sl (by omega)]
        exact ih (c + 1) (by omega) (by omega)

theorem phase_hblank_last (n c : Nat) (h : c + n = 204) (h1 : 1 ≤ n) :
    Ppu.stepS n (ppuSt Mode.HBlank c 143) = ppuSt Mode.VBlank 0 144 := by
  induction n generalizing c with
  | zero => omega
  | succ n ih =>
      show Ppu.stepS n (Ppu.tickS (ppuSt Mode.HBlank c 143)) = _
      by_cases hn : n = 0
      · subst hn
        have hc : c = 203 := by omega
        subst hc
        rfl
      · rw [tickS_hblank c 143 (by omega)]
        exact ih (c + 1) (by omega) (by omega)

theorem phase_vblank (n c sl : Nat) (h : c + n = 456) (h1 : 1 ≤ n)
    (hsl : sl + 1 < 154) :
    Ppu.stepS n (ppuSt Mode.VBlank c sl) = ppuSt Mode.VBlank 0 (sl + 1) := by
  induction n generalizing c with
  | zero => omega
  | succ n ih =>
      show Ppu.stepS n (Ppu.tickS (ppuSt Mode.VBlank c sl)) = _
      by_cases hn : n = 0
      · subst hn
        have hc : c = 455 := by omega
        subst hc
        show Ppu.tickS (ppuSt Mode.VBlank 455 sl) = _
        simp only [Ppu.tickS, ppuSt]
        rw [if_pos (by omega), if_neg (by omega)]
      · rw [tickS_vblank c sl (by omega)]
        exact ih (c + 1) (by omega) (by omega)

theorem phase_vblank_wrap (n c : Nat) (h : c + n = 456) (h1 : 1 ≤ n) :
    Ppu.stepS n (ppuSt Mode.VBlank c 153) = ppuSt Mode.OamSearch 0 0 := by
  induction n generalizing c with
  | zero => omega
  | succ n ih =>
      show Ppu.stepS n (Ppu.tickS (ppuSt Mode.VBlank c 153)) = _
      by_cases hn : n = 0
      · subst hn
        have hc : c = 455 := by omega
        subst hc
        rfl
      · rw [tickS_vblank c 153 (by omega)]
        exact ih (c + 1) (by omega) (by omega)

theorem line_vis (sl : Nat) (h : sl + 1 < 144) :
    Ppu.stepS 456 (ppuSt Mode.OamSearch 0 sl) = ppuSt Mode.OamSearch 0 (sl + 1) := by
  have e : (456 : Nat) = 80 + (172 + 204) := by norm_num
  rw [e, stepS_add, phase_oam 80 0 sl (by norm_num) (by norm_num),
      stepS_add, phase_draw 172 0 sl (by norm_num) (by norm_num),
      phase_hblank_vis 204 0 sl (by norm_num) (by norm_num) h]

theorem line_last :
    Ppu.stepS 456 (ppuSt Mode.OamSearch 0 143) = ppuSt Mode.VBlank 0 144 := by
  have e : (456 : Nat) = 80 + (172 + 204) := by norm_num
  rw [e, stepS_add, phase_oam 80 0 143 (by norm_num) (by norm_num),
      stepS_add, phase_draw 172 0 143 (by norm_num) (by norm_num),
      phase_hblank_last 204 0 (by norm_num) (by norm_num)]

theorem vis_lines (k : Nat) (h : k ≤ 143) :
    Ppu.stepS (456 * k) (ppuSt Mode.OamSearch 0 0) = ppuSt Mode.OamSearch 0 k := by
  induction k with
  | zero => rfl
  | succ k ih =>
      have e : 456 * (k + 1) = 456 * k + 456 := by ring
      rw [e, stepS_add, ih (by omega), line_vis k (by omega)]

theorem vb_lines (j : Nat) (h : j ≤ 9) :
    Ppu.stepS (456 * j) (ppuSt Mode.VBlank 0 144) = ppuSt Mode.VBlank 0 (144 + j) := by
  induction j with
  | zero => rfl
  | succ j ih =>
      have e : 456 * (j + 1) = 456 * j + 456 := by ring
      rw [e, stepS_add, ih (by omega),
          phase_vblank 456 0 (144 + j) (by norm_num) (by norm_num) (by omega)]
      congr 1

theorem stepS_to_vblank :
    Ppu.stepS 65664 Ppu.new = ppuSt Mode.VBlank 0 144 := by
  have e : (65664 : Nat) = 456 * 143 + 456 := by norm_num
  have hnew : Ppu.new = ppuSt Mode.OamSearch 0 0 := rfl
  rw [hnew, e, stepS_add, vis_lines 143 (by norm_num), line_last]

theorem stepS_full_frame :
    Ppu.stepS 70224 Ppu.new = ppuSt Mode.OamSearch 0 0 := by
  have e : (70224 : Nat) = 65664 + (456 * 9 + 456) := by norm_num
  rw [e, stepS_add, stepS_to_vblank, stepS_add, vb_lines 9 (by norm_num)]
  exact phase_vblank_wrap 456 0 (by norm_num) (by norm_num)

end GB

namespace GB

theorem tick_fst (p : Ppu) (fb : FB) : (Ppu.tick p fb).1 = Ppu.tickS p := by
  rcases p with ⟨m, cy, sl, r1, r2, r3, r4, r5, r6, r7, r8, r9⟩
  cases m <;> simp only [Ppu.tick, Ppu.tickS] <;> split_ifs <;> rfl

theorem stepN_fst (n : Nat) (p : Ppu) (fb : FB) :
    (Ppu.stepN n p fb).1 = Ppu.stepS n p := by
  induction n generalizing p fb with
  | zero => rfl
  | succ n ih =>
      show (Ppu.stepN n (Ppu.tick p fb).1 (Ppu.tick p fb).2).1 = _
      rw [ih, tick_fst]
      rfl

/-- C3 helper: the state after one whole scan-line period. -/
theorem stepS_one_line : Ppu.stepS 456 Ppu.new = ppuSt Mode.OamSearch 0 1 := by
  have hnew : Ppu.new = ppuSt Mode.OamSearch 0 0 := rfl
  rw [hnew]
  exact line_vis 0 (by norm_num)

theorem stepS_to_hblank : Ppu.stepS 252 Ppu.new = ppuSt Mode.HBlank 0 0 := by
  have hnew : Ppu.new = ppuSt Mode.OamSearch 0 0 := rfl
  have e : (252 : Nat) = 80 + 172 := by norm_num
  rw [hnew, e, stepS_add, phase_oam 80 0 0 (by norm_num) (by norm_num),
      phase_draw 172 0 0 (by norm_num) (by norm_num)]

end GB

namespace GB

/-- C3 (corrected claim): from a freshly reset PPU, after exactly 80+172
cycles the PPU is in HBlank with scan-line still 0; after 204 further
cycles (456 total, one full scan-line) the scan-line becomes 1 and the mode
returns to OAM-search. -/
theorem claim_C3_amended (fb : FB) :
    (Ppu.stepN (80 + 172) Ppu.new fb).1.mode = Mode.HBlank ∧
    (Ppu.stepN (80 + 172) Ppu.new fb).1.scanline = 0 ∧
    (Ppu.stepN (80 + 172 + 204) Ppu.new fb).1.mode = Mode.OamSearch ∧
    (Ppu.stepN (80 + 172 + 204) Ppu.new fb).1.scanline = 1 := by
  have e1 : (80 + 172 : Nat) = 252 := by norm_num
  have e2 : (80 + 172 + 204 : Nat) = 456 := by norm_num
  refine ⟨?_, ?_, ?_, ?_⟩ <;>
    rw [stepN_fst] <;>
    first
      | (rw [e1, stepS_to_hblank]; rfl)
      | (rw [e2, stepS_one_line]; rfl)

/-- C3 (counterexample to the claim as stated): after exactly 80+172+204
cycles from reset the PPU is not in HBlank with scan-line 0 — it is already
at scan-line 1 in OAM-search. -/
theorem claim_C3_counterexample :
    ¬ ((Ppu.stepN (80 + 172 + 204) Ppu.new (fun _ => 0)).1.mode = Mode.HBlank ∧
       (Ppu.stepN (80 + 172 + 204) Ppu.new (fun _ => 0)).1.scanline = 0) := by
  have h : (Ppu.stepN (80 + 172 + 204) Ppu.new (fun _ => 0)).1 = ppuSt Mode.OamSearch 0 1 := by
    rw [stepN_fst, show (80 + 172 + 204 : Nat) = 456 by norm_num, stepS_one_line]
  rw [h]
  intro hc
  exact absurd hc.1 (by decide)

/-- C4 (confirmed): after 144 full visible lines of 80+172+204 cycles each
the PPU is in VBlank; after 10 further scan-lines of 456 cycles each the
scan-line wraps to 0 and the mode returns to OAM-search, and the total
equals `CYCLES_PER_FRAME`. -/
theorem claim_C4 (fb : FB) :
    (Ppu.stepN (144 * (80 + 172 + 204)) Ppu.new fb).1.mode = Mode.VBlank ∧
    (Ppu.stepN (144 * (80 + 172 + 204) + 10 * 456) Ppu.new fb).1.scanline = 0 ∧
    (Ppu.stepN (144 * (80 + 172 + 204) + 10 * 456) Ppu.new fb).1.mode = Mode.OamSearch ∧
    144 * (80 + 172 + 204) + 10 * 456 = CYCLES_PER_FRAME := by
  have e1 : (144 * (80 + 172 + 204) : Nat) = 65664 := by norm_num
  have e2 : (144 * (80 + 172 + 204) + 10 * 456 : Nat) = 70224 := by norm_num
  refine ⟨?_, ?_, ?_, by norm_num [CYCLES_PER_FRAME]⟩ <;>
    rw [stepN_fst] <;>
    first
      | (rw [e1, stepS_to_vblank]; rfl)
      | (rw [e2, stepS_full_frame]; rfl)

end GB

namespace GB

theorem and16_cases (f : Nat) : f &&& 16 = 0 ∨ f &&& 16 = 16 := by
  have h := Nat.and_two_pow f 4
  norm_num at h
  cases hb : f.testBit 4 <;> rw [hb] at h <;> simp at h
  · exact Or.inl h
  · exact Or.inr h

theorem lor_low4 (x y : Nat) (hx : x &&& 15 = 0) (hy : y &&& 15 = 0) :
    (x ||| y) &&& 15 = 0 := by
  apply Nat.eq_of_testBit_eq
  intro i
  have hx' := congrArg (fun t => t.testBit i) hx
  have hy' := congrArg (fun t => t.testBit i) hy
  simp only [Nat.testBit_land, Nat.testBit_lor, Nat.zero_testBit] at hx' hy' ⊢
  cases h1 : x.testBit i <;> cases h2 : y.testBit i <;>
    cases h3 : (15 : Nat).testBit i <;> simp_all

theorem and16_low4 (f : Nat) : (f &&& 16) &&& 15 = 0 := by
  rcases and16_cases f with h | h <;> rw [h] <;> decide

theorem lor_and_self (x y : Nat) : (x ||| y) &&& x = x := by
  apply Nat.eq_of_testBit_eq
  intro i
  simp only [Nat.testBit_land, Nat.testBit_lor]
  cases hx : x.testBit i <;> cases hy : y.testBit i <;> simp

theorem preserve16 (f m : Nat) (hm : m &&& 16 = 0) :
    ((f &&& 16) ||| m) &&& 16 = f &&& 16 := by
  rcases and16_cases f with h | h <;> rw [h]
  · simpa using hm
  · exact lor_and_self 16 m

theorem inc_f (cpu : Cpu) (v : Nat) :
    (Cpu.inc cpu v).1.regs.f =
      (cpu.regs.f &&& FLAG_C) |||
      (if (v + 1) % 256 = 0 then FLAG_Z else 0) |||
      (if v &&& 0x0F = 0x0F then FLAG_H else 0) := rfl

theorem inc_result (cpu : Cpu) (v : Nat) : (Cpu.inc cpu v).2 = (v + 1) % 256 := rfl

theorem dec_f (cpu : Cpu) (v : Nat) :
    (Cpu.dec cpu v).1.regs.f =
      (cpu.regs.f &&& FLAG_C) ||| FLAG_N |||
      (if (v + 255) % 256 = 0 then FLAG_Z else 0) |||
      (if v &&& 0x0F = 0 then FLAG_H else 0) := rfl

theorem dec_result (cpu : Cpu) (v : Nat) : (Cpu.dec cpu v).2 = (v + 255) % 256 := rfl

theorem inc_low4 (cpu : Cpu) (v : Nat) : (Cpu.inc cpu v).1.regs.f &&& 15 = 0 := by
  rw [inc_f]
  simp only [FLAG_C, FLAG_Z, FLAG_H]
  apply lor_low4
  · apply lor_low4
    · exact and16_low4 _
    · split_ifs <;> decide
  · split_ifs <;> decide

theorem dec_low4 (cpu : Cpu) (v : Nat) : (Cpu.dec cpu v).1.regs.f &&& 15 = 0 := by
  rw [dec_f]
  simp only [FLAG_C, FLAG_Z, FLAG_H, FLAG_N]
  apply lor_low4
  · apply lor_low4
    · apply lor_low4
      · exact and16_low4 _
      · decide
    · split_ifs <;> decide
  · split_ifs <;> decide

theorem rlca_low4 (cpu : Cpu) (bus : Bus) :
    (Cpu.execute cpu 0x07 bus).1.regs.f &&& 15 = 0 := by
  show (if (cpu.regs.a &&& 0x80) >>> 7 ≠ 0 then FLAG_C else 0) &&& 15 = 0
  split_ifs <;> decide

end GB

namespace GB

/-- C6 (confirmed): incrementing any byte then decrementing the result
yields the byte again; increment of 0x0F sets Half-carry; increment of
0xFF yields Zero set and result 0x00; both `inc` and `dec` preserve the
incoming Carry flag unconditionally. -/
theorem claim_C6 (cpu : Cpu) (v : Nat) (hv : v < 256) :
    (Cpu.dec (Cpu.inc cpu v).1 (Cpu.inc cpu v).2).2 = v ∧
    (Cpu.inc cpu v).1.regs.f &&& FLAG_C = cpu.regs.f &&& FLAG_C ∧
    (Cpu.dec cpu v).1.regs.f &&& FLAG_C = cpu.regs.f &&& FLAG_C ∧
    (Cpu.inc cpu 0x0F).1.regs.f &&& FLAG_H = FLAG_H ∧
    (Cpu.inc cpu 0xFF).2 = 0 ∧
    (Cpu.inc cpu 0xFF).1.regs.f &&& FLAG_Z = FLAG_Z := by
  refine ⟨?_, ?_, ?_, ?_, ?_, ?_⟩
  · rw [dec_result, inc_result]
    omega
  · rw [inc_f]
    simp only [FLAG_C, FLAG_Z, FLAG_H]
    rw [Nat.lor_assoc]
    split_ifs <;> exact preserve16 _ _ (by decide)
  · rw [dec_f]
    simp only [FLAG_C, FLAG_Z, FLAG_H, FLAG_N]
    rw [Nat.lor_assoc, Nat.lor_assoc]
    split_ifs <;> exact preserve16 _ _ (by decide)
  · rw [inc_f]
    norm_num [FLAG_C, FLAG_Z, FLAG_H]
    rcases and16_cases cpu.regs.f with h | h <;> rw [h] <;> decide
  · rw [inc_result]
  · rw [inc_f]
    norm_num [FLAG_C, FLAG_Z, FLAG_H]
    rcases and16_cases cpu.regs.f with h | h <;> rw [h] <;> decide

/-- Witness for `claim_C6` at the half-carry boundary value 0x0F. -/
theorem claim_C6_witness :
    (15 : Nat) < 256 ∧
    ((Cpu.dec (Cpu.inc Cpu.new 15).1 (Cpu.inc Cpu.new 15).2).2 = 15 ∧
     (Cpu.inc Cpu.new 15).1.regs.f &&& FLAG_C = Cpu.new.regs.f &&& FLAG_C ∧
     (Cpu.dec Cpu.new 15).1.regs.f &&& FLAG_C = Cpu.new.regs.f &&& FLAG_C ∧
     (Cpu.inc Cpu.new 0x0F).1.regs.f &&& FLAG_H = FLAG_H ∧
     (Cpu.inc Cpu.new 0xFF).2 = 0 ∧
     (Cpu.inc Cpu.new 0xFF).1.regs.f &&& FLAG_Z = FLAG_Z) :=
  ⟨by decide, claim_C6 Cpu.new 15 (by decide)⟩

theorem step_f_cases (cpu : Cpu) (bus : Bus) :
    (Cpu.step cpu bus).1.regs.f = cpu.regs.f ∨
    (Cpu.step cpu bus).1.regs.f &&& 15 = 0 := by
  by_cases hh : cpu.halted
  · left
    simp [Cpu.step, hh]
  · have he : Cpu.step cpu bus =
        Cpu.execute { cpu with regs := { cpu.regs with pc := (cpu.regs.pc + 1) % 65536 } }
          (bus.read cpu.regs.pc) bus := by
      simp [Cpu.step, hh]
    rw [he]
    generalize bus.read cpu.regs.pc = o
    rcases o with _ | _ | _ | _ | _ | _ | _ | _ | o
    · left; rfl
    · left; rfl
    · left; rfl
    · left; rfl
    · right; exact inc_low4 _ _
    · right; exact dec_low4 _ _
    · left; rfl
    · right; exact rlca_low4 _ _
    · left; rfl

theorem iter_low4 (n : Nat) :
    ∀ s : Cpu × Bus, s.1.regs.f &&& 15 = 0 → (cpuIter n s).1.regs.f &&& 15 = 0 := by
  induction n with
  | zero => exact fun s h => h
  | succ n ih =>
      intro s h
      show (cpuIter n ((Cpu.step s.1 s.2).1, (Cpu.step s.1 s.2).2.1)).1.regs.f &&& 15 = 0
      apply ih
      rcases step_f_cases s.1 s.2 with he | he
      · show (Cpu.step s.1 s.2).1.regs.f &&& 15 = 0
        rw [he]
        exact h
      · exact he

/-- C9 (confirmed): the flag register's low nibble is 0 after `inc`,
`dec` and the rotate instruction RLCA, and — as an invariant — after every
CPU step starting from the power-on state. -/
theorem claim_C9 :
    (∀ (cpu : Cpu) (v : Nat), (Cpu.inc cpu v).1.regs.f &&& 0x0F = 0) ∧
    (∀ (cpu : Cpu) (v : Nat), (Cpu.dec cpu v).1.regs.f &&& 0x0F = 0) ∧
    (∀ (cpu : Cpu) (bus : Bus), (Cpu.execute cpu 0x07 bus).1.regs.f &&& 0x0F = 0) ∧
    (∀ n : Nat, (cpuIter n (Cpu.new, Bus.new)).1.regs.f &&& 0x0F = 0) :=
  ⟨inc_low4, dec_low4, rlca_low4, fun n => iter_low4 n (Cpu.new, Bus.new) (by decide)⟩

end GB

namespace GB

theorem write_wram (bus : Bus) (a v : Nat) (h1 : 0xC000 ≤ a) (h2 : a ≤ 0xDFFF) :
    Bus.write bus a v = { bus with wram := upd bus.wram (a - 0xC000) v } := by
  simp only [Bus.write]
  rw [if_neg (by omega), if_neg (by omega), if_neg (by omega), if_pos (by omega)]

theorem write_echo (bus : Bus) (a v : Nat) (h1 : 0xE000 ≤ a) (h2 : a ≤ 0xFDFF) :
    Bus.write bus a v = { bus with wram := upd bus.wram (a - 0xE000) v } := by
  simp only [Bus.write]
  rw [if_neg (by omega), if_neg (by omega), if_neg (by omega), if_neg (by omega),
      if_pos (by omega)]

theorem read_wram (bus : Bus) (a : Nat) (h1 : 0xC000 ≤ a) (h2 : a ≤ 0xDFFF) :
    Bus.read bus a = bus.wram (a - 0xC000) := by
  simp only [Bus.read]
  rw [if_neg (by omega), if_neg (by omega), if_neg (by omega), if_pos (by omega)]

theorem read_echo (bus : Bus) (a : Nat) (h1 : 0xE000 ≤ a) (h2 : a ≤ 0xFDFF) :
    Bus.read bus a = bus.wram (a - 0xE000) := by
  simp only [Bus.read]
  rw [if_neg (by omega), if_neg (by omega), if_neg (by omega), if_neg (by omega),
      if_pos (by omega)]

/-- C5 (corrected claim): the echo alias round-trips hold for working-memory
addresses 0xC000–0xDDFF (exactly the range whose +0x2000 alias falls inside
the echo region 0xE000–0xFDFF); the last 0x200 working-memory bytes have no
echo alias. -/
theorem claim_C5_amended (bus : Bus) (a v : Nat) (h1 : 0xC000 ≤ a) (h2 : a ≤ 0xDDFF) :
    Bus.read (Bus.write bus a v) (a + 0x2000) = v ∧
    Bus.read (Bus.write bus (a + 0x2000) v) a = v := by
  constructor
  · rw [write_wram bus a v h1 (by omega),
        read_echo _ (a + 0x2000) (by omega) (by omega)]
    simp only [upd]
    rw [if_pos (by omega)]
  · rw [write_echo bus (a + 0x2000) v (by omega) (by omega),
        read_wram _ a h1 (by omega)]
    simp only [upd]
    rw [if_pos (by omega)]

/-- C5 (counterexample to the claim as stated): address 0xDE00 is in the
working-memory range, but its +0x2000 alias 0xFE00 lands in OAM, so the
written byte does not read back. -/
theorem claim_C5_counterexample :
    ¬ (Bus.read (Bus.write Bus.new 0xDE00 0x42) (0xDE00 + 0x2000) = 0x42) := by
  decide

/-- Witness for `claim_C5_amended` at address 0xC123. -/
theorem claim_C5_witness :
    ((0xC000 : Nat) ≤ 0xC123 ∧ (0xC123 : Nat) ≤ 0xDDFF) ∧
    (Bus.read (Bus.write Bus.new 0xC123 0x42) (0xC123 + 0x2000) = 0x42 ∧
     Bus.read (Bus.write Bus.new (0xC123 + 0x2000) 0x42) 0xC123 = 0x42) :=
  ⟨⟨by decide, by decide⟩, claim_C5_amended Bus.new 0xC123 0x42 (by decide) (by decide)⟩

/-- C7 (confirmed): loading an image shorter than the 0x150-byte header
region fails with the descriptive error and leaves the core — previously
loaded cartridge, its RAM, and every bus region — exactly as before. -/
theorem claim_C7 (c : Core) (data : Bytes) (h : data.size < 0x150) :
    Core.loadRom c data = (c, Except.error ("Failed to load ROM: ROM too small")) := by
  simp only [Core.loadRom, Cartridge.from_rom]
  rw [if_pos h]
  rfl

/-- Witness for `claim_C7` on the empty image. -/
theorem claim_C7_witness :
    emptyBytes.size < 0x150 ∧
    Core.loadRom Core.new emptyBytes =
      (Core.new, Except.error ("Failed to load ROM: ROM too small")) :=
  ⟨by decide, claim_C7 Core.new emptyBytes (by decide)⟩

theorem press_release_byte :
    ∀ x : Nat, x < 256 → ∀ b : Nat, b < 8 →
      ((x &&& (255 ^^^ (1 <<< b))) ||| (1 <<< b) = x ||| (1 <<< b)) ∧
      (x.testBit b = true → x ||| (1 <<< b) = x) := by
  decide

/-- C8 (corrected claim): pressing then releasing button `b` always leaves
bit `b` set (released) and all other bits unchanged; the whole joypad byte
is restored exactly when bit `b` was set (button released) beforehand. -/
theorem claim_C8_amended (bus : Bus) (b : Nat) (hb : b < 8) (hx : bus.buttons < 256) :
    Bus.setButton (Bus.setButton bus b true) b false =
      { bus with buttons := bus.buttons ||| (1 <<< b) } ∧
    (bus.buttons.testBit b = true →
      Bus.setButton (Bus.setButton bus b true) b false = bus) := by
  have hi : Bus.setButton bus b true =
      { bus with buttons := bus.buttons &&& (255 ^^^ (1 <<< b)) } := by
    simp [Bus.setButton, hb]
  have ho : ∀ bb : Bus, Bus.setButton bb b false =
      { bb with buttons := bb.buttons ||| (1 <<< b) } := fun bb => by
    simp [Bus.setButton, hb]
  have h1 := (press_release_byte bus.buttons hx b hb).1
  have h2 := (press_release_byte bus.buttons hx b hb).2
  constructor
  · rw [hi, ho]
    show ({ bus with buttons := (bus.buttons &&& (255 ^^^ (1 <<< b))) ||| (1 <<< b) } : Bus) = _
    rw [h1]
  · intro ht
    rw [hi, ho]
    show ({ bus with buttons := (bus.buttons &&& (255 ^^^ (1 <<< b))) ||| (1 <<< b) } : Bus) = _
    rw [h1, h2 ht]

/-- C8 (counterexample to the claim as stated): on a bus where button 0 is
already pressed (bit 0 clear), pressing then releasing button 0 leaves bit
0 set — it does not restore the original bit value. -/
theorem claim_C8_counterexample :
    ¬ ((Bus.setButton (Bus.setButton pressedBus 0 true) 0 false).buttons.testBit 0 =
       pressedBus.buttons.testBit 0) := by
  decide

/-- Witness for `claim_C8_amended` on the power-on bus and button 0. -/
theorem claim_C8_witness :
    ((0 : Nat) < 8 ∧ Bus.new.buttons < 256) ∧
    (Bus.setButton (Bus.setButton Bus.new 0 true) 0 false =
       { Bus.new with buttons := Bus.new.buttons ||| (1 <<< 0) } ∧
     (Bus.new.buttons.testBit 0 = true →
       Bus.setButton (Bus.setButton Bus.new 0 true) 0 false = Bus.new)) :=
  ⟨⟨by decide, by decide⟩, claim_C8_amended Bus.new 0 (by decide) (by decide)⟩

/-- C10 (confirmed): for any button code 8 or larger, the input-set
operation leaves the joypad byte and all other state completely
unchanged. -/
theorem claim_C10 (c : Core) (b : Nat) (p : Bool) (h : 8 ≤ b) :
    Core.setInput c b p = c ∧ Bus.setButton c.bus b p = c.bus := by
  have hb : Bus.setButton c.bus b p = c.bus := by
    simp only [Bus.setButton]
    rw [if_neg (by omega)]
  refine ⟨?_, hb⟩
  simp only [Core.setInput]
  rw [hb]

/-- Witness for `claim_C10` at button code 8. -/
theorem claim_C10_witness :
    (8 : Nat) ≤ 8 ∧
    (Core.setInput Core.new 8 true = Core.new ∧
     Bus.setButton Core.new.bus 8 true = Core.new.bus) :=
  ⟨by decide, claim_C10 Core.new 8 true (by decide)⟩

/-- C1 (code-bug demonstration): loading `romImage` (a valid 32 KiB
ROM-only image whose byte at address 0 is 0x42) succeeds and stores the
cartridge, yet a bus read of ROM address 0 still returns 0 — `load_rom`
never installs the cartridge bytes into the bus, whose ROM remains the
zero-filled buffer from construction. -/
theorem claim_C1_code_bug :
    (Core.loadRom Core.new romImage).2 = Except.ok () ∧
    ((Core.loadRom Core.new romImage).1.cartridge.map
       (fun ct => ct.header.cartridge_type) = some CartridgeType.RomOnly) ∧
    ((Core.loadRom Core.new romImage).1.cartridge.map
       (fun ct => ct.rom.get 0) = some 0x42) ∧
    Bus.read (Core.loadRom Core.new romImage).1.bus 0 = 0 :=
  ⟨rfl, rfl, rfl, rfl⟩

end GB

namespace GB

theorem step_cycles (cpu : Cpu) (bus : Bus) :
    4 ≤ (Cpu.step cpu bus).2.2 ∧ (Cpu.step cpu bus).2.2 ≤ 12 := by
  by_cases hh : cpu.halted
  · simp [Cpu.step, hh]
  · have he : Cpu.step cpu bus =
        Cpu.execute { cpu with regs := { cpu.regs with pc := (cpu.regs.pc + 1) % 65536 } }
          (bus.read cpu.regs.pc) bus := by
      simp [Cpu.step, hh]
    rw [he]
    generalize bus.read cpu.regs.pc = o
    rcases o with _ | _ | _ | _ | _ | _ | _ | _ | o <;>
      exact ⟨Nat.le_of_sub_eq_zero rfl, Nat.le_of_sub_eq_zero rfl⟩

theorem frameAux_ge (fuel : Nat) : ∀ (c : Core) (acc : Nat),
    CYCLES_PER_FRAME ≤ acc + 4 * fuel → CYCLES_PER_FRAME ≤ (frameAux fuel c acc).2 := by
  induction fuel with
  | zero =>
      intro c acc h
      simpa using h
  | succ fuel ih =>
      intro c acc h
      simp only [frameAux]
      split_ifs with hg
      · have hs := (step_cycles c.cpu c.bus).1
        exact ih _ _ (by omega)
      · omega

theorem frameAux_lt (fuel : Nat) : ∀ (c : Core) (acc : Nat),
    acc < CYCLES_PER_FRAME + 12 → (frameAux fuel c acc).2 < CYCLES_PER_FRAME + 12 := by
  induction fuel with
  | zero =>
      intro c acc h
      simpa using h
  | succ fuel ih =>
      intro c acc h
      simp only [frameAux]
      split_ifs with hg
      · have hs := (step_cycles c.cpu c.bus).2
        exact ih _ _ (by omega)
      · simpa using h

theorem frameStep_cc (c : Core) :
    (frameStep c).cycleCount = (c.cycleCount + (Cpu.step c.cpu c.bus).2.2) % 4294967296 := rfl

theorem frameAux_cc (fuel : Nat) : ∀ (c : Core) (acc : Nat),
    c.cycleCount < 4294967296 →
    ∃ d, (frameAux fuel c acc).2 = acc + d ∧
      (frameAux fuel c acc).1.cycleCount = (c.cycleCount + d) % 4294967296 := by
  induction fuel with
  | zero =>
      intro c acc hcc
      exact ⟨0, by simp [frameAux], by simp [frameAux, Nat.mod_eq_of_lt hcc]⟩
  | succ fuel ih =>
      intro c acc hcc
      simp only [frameAux]
      split_ifs with hg
      · obtain ⟨d, hd1, hd2⟩ :=
          ih (frameStep c) (acc + (Cpu.step c.cpu c.bus).2.2)
            (by rw [frameStep_cc]; exact Nat.mod_lt _ (by norm_num))
        refine ⟨(Cpu.step c.cpu c.bus).2.2 + d, ?_, ?_⟩
        · rw [hd1]
          omega
        · rw [hd2, frameStep_cc]
          simp only [Nat.mod_add_mod]
          congr 1
          omega
      · exact ⟨0, by simp, by simp [Nat.mod_eq_of_lt hcc]⟩

theorem frameAux_snd (fuel : Nat) : ∀ (c : Core) (acc : Nat),
    (frameAux fuel c acc).2 = (cbAux fuel c.cpu c.bus acc).2.2 := by
  induction fuel with
  | zero => intro c acc; rfl
  | succ fuel ih =>
      intro c acc
      simp only [frameAux, cbAux]
      split_ifs with hg
      · exact ih _ _
      · rfl

theorem cbAux_exit (fuel : Nat) (cpu : Cpu) (bus : Bus) (acc : Nat)
    (h : ¬ acc < CYCLES_PER_FRAME) : cbAux fuel cpu bus acc = (cpu, bus, acc) := by
  cases fuel with
  | zero => rfl
  | succ fuel =>
      simp only [cbAux]
      rw [if_neg h]

theorem cbAux_add (f1 f2 : Nat) : ∀ (cpu : Cpu) (bus : Bus) (acc : Nat),
    cbAux (f1 + f2) cpu bus acc =
      cbAux f2 (cbAux f1 cpu bus acc).1 (cbAux f1 cpu bus acc).2.1
        (cbAux f1 cpu bus acc).2.2 := by
  induction f1 with
  | zero =>
      intro cpu bus acc
      rw [Nat.zero_add]
      rfl
  | succ f1 ih =>
      intro cpu bus acc
      have e : f1 + 1 + f2 = (f1 + f2) + 1 := by omega
      rw [e]
      by_cases hg : acc < CYCLES_PER_FRAME
      · show (if acc < CYCLES_PER_FRAME then _ else _) = _
        rw [if_pos hg]
        conv_rhs => rw [show cbAux (f1 + 1) cpu bus acc =
          cbAux f1 (Cpu.step cpu bus).1 (Cpu.step cpu bus).2.1
            (acc + (Cpu.step cpu bus).2.2) from by
              simp only [cbAux]
              rw [if_pos hg]]
        exact ih _ _ _
      · show (if acc < CYCLES_PER_FRAME then _ else _) = _
        rw [if_neg hg, cbAux_exit (f1 + 1) cpu bus acc hg]
        rw [cbAux_exit f2 cpu bus acc hg]


theorem overshoot_chunk1 :
    cbAux 500 Cpu.new overshootCore.bus 0 =
      (cpAt 1754, overshootCore.bus, 5992) := by rfl

theorem overshoot_chunk2 :
    cbAux 500 (cpAt 1754) overshootCore.bus 5992 =
      (cpAt 3254, overshootCore.bus, 11992) := by rfl

theorem overshoot_chunk3 :
    cbAux 500 (cpAt 3254) overshootCore.bus 11992 =
      (cpAt 4754, overshootCore.bus, 17992) := by rfl

theorem overshoot_chunk4 :
    cbAux 500 (cpAt 4754) overshootCore.bus 17992 =
      (cpAt 6254, overshootCore.bus, 23992) := by rfl

theorem overshoot_chunk5 :
    cbAux 500 (cpAt 6254) overshootCore.bus 23992 =
      (cpAt 7754, overshootCore.bus, 29992) := by rfl

theorem overshoot_chunk6 :
    cbAux 500 (cpAt 7754) overshootCore.bus 29992 =
      (cpAt 9254, overshootCore.bus, 35992) := by rfl

theorem overshoot_chunk7 :
    cbAux 500 (cpAt 9254) overshootCore.bus 35992 =
      (cpAt 10754, overshootCore.bus, 41992) := by rfl

theorem overshoot_chunk8 :
    cbAux 500 (cpAt 10754) overshootCore.bus 41992 =
      (cpAt 12254, overshootCore.bus, 47992) := by rfl

theorem overshoot_chunk9 :
    cbAux 500 (cpAt 12254) overshootCore.bus 47992 =
      (cpAt 13754, overshootCore.bus, 53992) := by rfl

theorem overshoot_chunk10 :
    cbAux 500 (cpAt 13754) overshootCore.bus 53992 =
      (cpAt 15254, overshootCore.bus, 59992) := by rfl

theorem overshoot_chunk11 :
    cbAux 500 (cpAt 15254) overshootCore.bus 59992 =
      (cpAt 16754, overshootCore.bus, 65992) := by rfl

theorem overshoot_chunk12 :
    cbAux 500 (cpAt 16754) overshootCore.bus 65992 =
      (cpAt 17813, overshootCore.bus, 70228) := by rfl

theorem overshoot_eval :
    cbAux 17556 Cpu.new overshootCore.bus 0 = (cpAt 17813, overshootCore.bus, 70228) := by
  rw [show (17556 : Nat) = 500 + 17056 from by norm_num, cbAux_add, overshoot_chunk1]
  show cbAux 17056 (cpAt 1754) overshootCore.bus 5992 = _
  rw [show (17056 : Nat) = 500 + 16556 from by norm_num, cbAux_add, overshoot_chunk2]
  show cbAux 16556 (cpAt 3254) overshootCore.bus 11992 = _
  rw [show (16556 : Nat) = 500 + 16056 from by norm_num, cbAux_add, overshoot_chunk3]
  show cbAux 16056 (cpAt 4754) overshootCore.bus 17992 = _
  rw [show (16056 : Nat) = 500 + 15556 from by norm_num, cbAux_add, overshoot_chunk4]
  show cbAux 15556 (cpAt 6254) overshootCore.bus 23992 = _
  rw [show (15556 : Nat) = 500 + 15056 from by norm_num, cbAux_add, overshoot_chunk5]
  show cbAux 15056 (cpAt 7754) overshootCore.bus 29992 = _
  rw [show (15056 : Nat) = 500 + 14556 from by norm_num, cbAux_add, overshoot_chunk6]
  show cbAux 14556 (cpAt 9254) overshootCore.bus 35992 = _
  rw [show (14556 : Nat) = 500 + 14056 from by norm_num, cbAux_add, overshoot_chunk7]
  show cbAux 14056 (cpAt 10754) overshootCore.bus 41992 = _
  rw [show (14056 : Nat) = 500 + 13556 from by norm_num, cbAux_add, overshoot_chunk8]
  show cbAux 13556 (cpAt 12254) overshootCore.bus 47992 = _
  rw [show (13556 : Nat) = 500 + 13056 from by norm_num, cbAux_add, overshoot_chunk9]
  show cbAux 13056 (cpAt 13754) overshootCore.bus 53992 = _
  rw [show (13056 : Nat) = 500 + 12556 from by norm_num, cbAux_add, overshoot_chunk10]
  show cbAux 12556 (cpAt 15254) overshootCore.bus 59992 = _
  rw [show (12556 : Nat) = 500 + 12056 from by norm_num, cbAux_add, overshoot_chunk11]
  show cbAux 12056 (cpAt 16754) overshootCore.bus 65992 = _
  rw [show (12056 : Nat) = 500 + 11556 from by norm_num, cbAux_add, overshoot_chunk12]
  show cbAux 11556 (cpAt 17813) overshootCore.bus 70228 = _
  exact cbAux_exit 11556 (cpAt 17813) overshootCore.bus 70228 (by norm_num [CYCLES_PER_FRAME])


/-- C2 (counterexample to the claim as stated): on `overshootCore` — whose
bus ROM holds one NOP followed by a run of 12-cycle `LD BC, nn`
instructions — a single run-one-frame call consumes 70228 cycles, not
exactly `CYCLES_PER_FRAME` = 70224: the final CPU step overshoots the
budget and the excess is discarded, not carried. -/
theorem claim_C2_counterexample :
    (Core.frame overshootCore).2 ≠ CYCLES_PER_FRAME := by
  have hd : (CYCLES_PER_FRAME / 4 : Nat) = 17556 := by norm_num [CYCLES_PER_FRAME]
  have h : (Core.frame overshootCore).2 = 70228 := by
    show (frameAux (CYCLES_PER_FRAME / 4) overshootCore 0).2 = 70228
    rw [frameAux_snd, hd]
    have hc : overshootCore.cpu = Cpu.new := rfl
    rw [hc, overshoot_eval]
  rw [h]
  norm_num [CYCLES_PER_FRAME]

/-- C2 (corrected claim): every run-one-frame call stops issuing CPU steps
as soon as the per-call counter reaches `CYCLES_PER_FRAME`, so it consumes
at least 70224 and at most 70235 cycles; the consumed total is added to the
cumulative (wrapping 32-bit) cycle counter, and any overshoot is discarded
rather than carried — the per-call counter restarts at zero. -/
theorem claim_C2_amended (c : Core) (hcc : c.cycleCount < 4294967296) :
    CYCLES_PER_FRAME ≤ (Core.frame c).2 ∧
    (Core.frame c).2 < CYCLES_PER_FRAME + 12 ∧
    (Core.frame c).1.cycleCount = (c.cycleCount + (Core.frame c).2) % 4294967296 := by
  refine ⟨?_, ?_, ?_⟩
  · exact frameAux_ge _ c 0 (by norm_num [CYCLES_PER_FRAME])
  · exact frameAux_lt _ c 0 (by norm_num [CYCLES_PER_FRAME])
  · obtain ⟨d, hd1, hd2⟩ := frameAux_cc (CYCLES_PER_FRAME / 4) c 0 hcc
    show (frameAux (CYCLES_PER_FRAME / 4) c 0).1.cycleCount = _
    rw [hd2]
    congr 1
    have : (Core.frame c).2 = (frameAux (CYCLES_PER_FRAME / 4) c 0).2 := rfl
    omega

/-- Witness for `claim_C2_amended` on the power-on core. -/
theorem claim_C2_amended_witness :
    Core.new.cycleCount < 4294967296 ∧
    (CYCLES_PER_FRAME ≤ (Core.frame Core.new).2 ∧
     (Core.frame Core.new).2 < CYCLES_PER_FRAME + 12 ∧
     (Core.frame Core.new).1.cycleCount =
       (Core.new.cycleCount + (Core.frame Core.new).2) % 4294967296) :=
  ⟨by decide, claim_C2_amended Core.new (by decide)⟩

end GB
